import Mathlib

/-
Verification of the public contract of `inst/python/huggingface_Interface3.py`.

The Python module is a thin wrapper around an external pretrained-model
toolkit.  We shallowly embed the wrapper's own logic:

  * `get_device`        — device-string normalization (source lines 52-94);
  * `get_model`         — model loading with the megatron-bert special case
                          (source lines 96-130);
  * `hgTransformerGetSentiment`  — sentiment scoring (source lines 132-180);
  * `hgTransformerGetEmbedding`  — embedding extraction (source lines 182-314).

External collaborators (torch, the tokenizer, the transformer model, the
sentence tokenizer, the classification pipeline) are modelled as abstract
function parameters; their contracts, where a claim needs them, appear as
explicit hypotheses.  Process-wide side effects that do not influence the
returned values (logging verbosity, the tokenizer-parallelism environment
flag, device placement of tensors) are elided; printed warnings of
`get_device` are modelled as an explicit list of output lines.  Fallible
Python code (exceptions, `sys.exit`) is modelled with `Option`, `none`
standing for a raised error or process termination.
-/

/-! ### Python string primitives -/

/-- Python `str.lower()` restricted to character-wise lowering (the inputs the
module documents are ASCII device strings). -/
def pyLower (s : String) : String :=
  String.mk (s.data.map Char.toLower)

/-- Python `str.startswith(p)`. -/
def pyStartsWith (p s : String) : Bool :=
  p.data.isPrefixOf s.data

/-- Python `str.split(":")` on the underlying character list:
`"a:b".split(":") = ["a", "b"]`, `"cpu".split(":") = ["cpu"]`. -/
def splitColon (cs : List Char) : List (List Char) :=
  match cs with
  | [] => [[]]
  | c :: rest =>
    let r := splitColon rest
    if c = ':' then [] :: r
    else
      match r with
      | [] => [[c]]
      | h :: t => (c :: h) :: t

/-- Decimal value of a digit string. -/
def digitsToNat (cs : List Char) : Nat :=
  cs.foldl (fun acc c => acc * 10 + (c.toNat - 48)) 0

/-- Python `int(s)` on a character list: strips surrounding whitespace, accepts
an optional sign followed by decimal digits, fails (raises `ValueError`,
modelled as `none`) otherwise.  Python additionally accepts underscores
between digits and non-ASCII digits; those inputs are not exercised by any
claim and are treated as parse failures here. -/
def pyIntChars (cs : List Char) : Option Int :=
  let t := ((cs.dropWhile Char.isWhitespace).reverse.dropWhile Char.isWhitespace).reverse
  match t with
  | [] => none
  | c :: rest =>
    let neg : Bool := c = '-'
    let ds := if c = '-' ∨ c = '+' then rest else c :: rest
    if ds ≠ [] ∧ ds.all Char.isDigit then
      some (if neg then -(digitsToNat ds : Int) else (digitsToNat ds : Int))
    else none

/-- Python `int(s)` on a string. -/
def pyInt (s : String) : Option Int :=
  pyIntChars s.data

/-- Python substring containment `needle in hay` on character lists. -/
def listInfix (needle hay : List Char) : Bool :=
  (List.range (hay.length + 1)).any (fun i => needle.isPrefixOf (hay.drop i))

/-- Python substring containment `needle in hay` for strings. -/
def pyIn (needle hay : String) : Bool :=
  listInfix needle.data hay.data

/-! ### Device resolution (`get_device`, source lines 52-94) -/

/-- State of the torch accelerator runtime: the results of
`torch.cuda.is_available()` and `torch.cuda.device_count()`. -/
structure TorchEnv where
  cuda_available : Bool
  cuda_device_count : Nat

/-- Source lines 69-73: after lowercasing, does the device string start with
one of the recognized stems `cpu`, `gpu`, `cuda`? -/
def recognizedDevice (device : String) : Bool :=
  pyStartsWith ("cpu") (pyLower device) || pyStartsWith ("gpu") (pyLower device) ||
    pyStartsWith ("cuda") (pyLower device)

/-- Source lines 68-73: lowercase the device string and fall back to `cpu`
when the stem is unrecognized. -/
def normDevice (device : String) : String :=
  if !(recognizedDevice device) then ("cpu") else pyLower device

/-- Warning lines printed by the fallback of source lines 69-72 (quotes of the
original message text dropped). -/
def normWarn (device : String) : List String :=
  if !(recognizedDevice device) then
    ["device must be cpu, gpu, cuda, or of the form gpu:k or cuda:k",
     "where k is an integer value for the device",
     "Trying CPUs"]
  else []

/-- Source lines 77-88, the `attached` logic for a non-`cpu` device string:
`some (some k)` means a device number `k` was attached, `some none` means the
attempt failed (either CUDA is unavailable or the explicit suffix failed to
parse as an integer — the `try`/`except` swallows the `ValueError`), and
`none` means the uncaught `IndexError` of `list(range(0))[0]` when
`torch.cuda.is_available()` holds with a zero device count. -/
def deviceAttach (tenv : TorchEnv) (d : String) : Option (Option Int) :=
  if tenv.cuda_available then
    if d = "gpu" ∨ d = "cuda" then
      match (List.range tenv.cuda_device_count).head? with
      | some k => some (some (k : Int))
      | none => none
    else some (pyIntChars ((splitColon d.data).getLastD []))
  else some none

/-- Model of `get_device` (source lines 52-94).  Returns the printed warning lines
together with the `(device, device_num)` pair; `none` models an uncaught
exception. -/
def get_device (tenv : TorchEnv) (device : String) : Option (List String × String × Int) :=
  let d := normDevice device
  let w := normWarn device
  if d = "cpu" then some (w, d, -1)
  else
    match deviceAttach tenv d with
    | none => none
    | some (some k) => some (w, d, k)
    | some none => some (w ++ ["Unable to use CUDA (GPU), using CPU"], "cpu", -1)

/-! ### Model loading (`get_model`, source lines 96-130) -/

/-- Environment of the model loader.  `C`, `T`, `M` are the (opaque) types of
toolkit configuration, tokenizer and model objects; the fields model the
external constructors.  `megatron_import_ok` records whether
`from transformers import BertTokenizer, MegatronBertForMaskedLM` succeeds.
The Boolean argument of `autoConfig` is the `output_hidden_states` flag. -/
structure LoaderEnv (C T M : Type) where
  megatron_import_ok : Bool
  autoConfig : String → Bool → C
  autoTokenizer : String → T
  autoModel : String → C → M
  bertTokenizer : String → T
  megatronModel : String → C → M

/-- Model of `get_model` (source lines 96-130).  Here `none` models the
`sys.exit()` taken when the model name contains `megatron-bert` but the
specialized classes cannot be imported. -/
def get_model {C T M : Type} (lenv : LoaderEnv C T M) (model : String) :
    Option (C × T × M) :=
  if pyIn ("megatron-bert") model then
    if lenv.megatron_import_ok then
      let config := lenv.autoConfig model true
      let tokenizer :=
        if pyIn ("megatron-bert-cased") model then
          lenv.bertTokenizer ("nvidia/megatron-bert-cased-345m")
        else
          lenv.bertTokenizer ("nvidia/megatron-bert-uncased-345m")
      some (config, tokenizer, lenv.megatronModel model config)
    else none
  else
    let config := lenv.autoConfig model true
    some (config, lenv.autoTokenizer model, lenv.autoModel model config)

/-! ### Sentiment scoring (`hgTransformerGetSentiment`, source lines 132-180) -/

/-- Input of the two public entry points: a single string or a list of
strings. -/
abbrev StrOrList := Sum String (List String)

/-- Source lines 164-166 and 244-246: coerce a non-list input into a
singleton list. -/
def coerceStrings (x : StrOrList) : List String :=
  match x with
  | Sum.inl s => [s]
  | Sum.inr l => l

/-- Arguments with which the `pipeline("sentiment-analysis", ...)` constructor
is invoked: the optional `model=` string, the optional `tokenizer=` object and
the optional `device=` index. -/
structure PipelineArgs (T : Type) where
  modelArg : Option String
  tokenizerArg : Option T
  deviceArg : Option Int

/-- Modelled from the spec: the classification pipeline itself is an external
collaborator (the code only constructs it and applies it to the whole input
list).  Spec sections 4.3 and 6 state that it returns one label/score result
per input string, in input order; accordingly the batch call is modelled as a
map of an abstract per-string scoring function over the input list. -/
def runPipeline {T S : Type} (score : PipelineArgs T → String → S)
    (args : PipelineArgs T) (ts : List String) : List S :=
  ts.map (score args)

/-- Model of `hgTransformerGetSentiment` (source lines 132-180), instrumented to also
return the arguments used to construct the pipeline (needed to state how the
device index is forwarded).  `none` models an uncaught exception from
`get_device` or the `sys.exit` of `get_model`. -/
def hgTransformerGetSentimentCore {C T M S : Type}
    (score : PipelineArgs T → String → S)
    (lenv : LoaderEnv C T M) (tenv : TorchEnv)
    (text_strings : StrOrList) (model : String) (device : String) :
    Option (PipelineArgs T × List S) := do
  let (_w, _d, device_num) ← get_device tenv device
  let ts := coerceStrings text_strings
  if model ≠ "" then
    let (_config, tokenizer, _tm) ← get_model lenv model
    if 0 < device_num then
      let args : PipelineArgs T := ⟨some model, some tokenizer, some device_num⟩
      pure (args, runPipeline score args ts)
    else
      let args : PipelineArgs T := ⟨some model, some tokenizer, none⟩
      pure (args, runPipeline score args ts)
  else
    if 0 < device_num then
      let args : PipelineArgs T := ⟨none, none, some device_num⟩
      pure (args, runPipeline score args ts)
    else
      let args : PipelineArgs T := ⟨none, none, none⟩
      pure (args, runPipeline score args ts)

/-- The value actually returned by `hgTransformerGetSentiment`: the list of
per-string results. -/
def hgTransformerGetSentiment {C T M S : Type}
    (score : PipelineArgs T → String → S)
    (lenv : LoaderEnv C T M) (tenv : TorchEnv)
    (text_strings : StrOrList) (model : String) (device : String) :
    Option (List S) :=
  (hgTransformerGetSentimentCore score lenv tenv text_strings model device).map Prod.snd

/-! ### Embedding extraction (`hgTransformerGetEmbedding`, source lines 182-314)

Token ids and feature values are modelled as integers (the floating-point
feature values play no structural role in any claim).  A hidden-state tensor
of one layer is a `batch x seq x hidden` nested list. -/

/-- Hidden states of one layer: `batch x seq x hidden`. -/
abbrev LayerTensor := List (List (List Int))

/-- Behaviour of a loaded tokenizer object, as used by the embedding function:
`tok_batch ss mml` models `tokenizer(ss, padding=True, truncation=True,
add_special_tokens=True)` — with `max_length=mml` when `mml` is given —
returning the `input_ids` and `attention_mask` fields; `encode` models
`tokenizer.encode(s, add_special_tokens=True)`; `convert_ids_to_tokens`
and `max_len_sentences_pair` model the members of the same names. -/
structure TokBehavior where
  tok_batch : List String → Option Nat → (List (List Int)) × (List (List Int))
  encode : String → List Int
  convert_ids_to_tokens : List Int → List String
  max_len_sentences_pair : Nat

/-- Behaviour of a loaded transformer model: `forward ids mask` models the
hidden-states component `transformer_model(ids, attention_mask=mask)[-1]`
(with `mask = none` for the single-argument call), one `LayerTensor` per
layer, the input-embedding layer first. -/
structure ModelBehavior where
  forward : List (List Int) → Option (List (List Int)) → List LayerTensor

/-- Python list indexing `xs[i]`, including negative indices; `none` models
an `IndexError`. -/
def pyGet {α : Type} (xs : List α) (i : Int) : Option α :=
  if 0 ≤ i then xs.get? i.toNat
  else if (-i).toNat ≤ xs.length then xs.get? (xs.length - (-i).toNat) else none

/-- Sequential `Option`-valued map, aborting at the first failure (the way a
Python `for` loop aborts at the first uncaught exception). -/
def listMapM {α β : Type} (f : α → Option β) : List α → Option (List β)
  | [] => some []
  | x :: xs => (f x).bind (fun y => (listMapM f xs).map (fun ys => y :: ys))

/-- Source lines 279-280 and 304-305: `[hidden_states[l] for l in layers]`,
keeping all layers when `layers = 'all'` (modelled as `none`). -/
def selectLayers (layers : Option (List Int)) (hs : List LayerTensor) :
    Option (List LayerTensor) :=
  match layers with
  | none => some hs
  | some ls => listMapM (pyGet hs) ls

/-- Rows of a nested list all have the length of the first row. -/
def rectangular {α : Type} (rows : List (List α)) : Bool :=
  match rows with
  | [] => true
  | r :: rs => rs.all (fun x => x.length == r.length)

/-- Model of `torch.tensor` on a list of lists: raises (`none`) unless the nested list
is rectangular. -/
def toTensor2 {α : Type} (rows : List (List α)) : Option (List (List α)) :=
  if rectangular rows then some rows else none

/-- The positions of one sentence kept by the filter of source line 288:
`[tok for ii, tok in enumerate(row) if maskRow[ii] > 0]`, assuming every
index of `row` is in range of `maskRow`. -/
def maskedRow {α : Type} (row : List α) (maskRow : List Int) : List α :=
  (row.zip maskRow).filterMap (fun p => if 0 < p.2 then some p.1 else none)

/-- Source line 288 with its implicit `IndexError`: `none` when some position
of `row` has no mask entry. -/
def maskFilterRow {α : Type} (row : List α) (maskRow : List Int) : Option (List α) :=
  if row.length ≤ maskRow.length then some (maskedRow row maskRow) else none

/-- Source lines 286-288: concatenation, over the sentences of one layer, of
the positions with a positive attention-mask value. -/
def layerConcat (layer : LayerTensor) (mask : List (List Int)) :
    Option (List (List Int)) :=
  if layer.length ≤ mask.length then
    (listMapM (fun p => maskFilterRow p.1 p.2) (layer.zip mask)).map List.flatten
  else none

/-- The value `layerConcat` computes when every shape matches: the flat
per-layer sequence of non-padding token vectors, in sentence order. -/
def flatMasked (h : LayerTensor) (mask : List (List Int)) : List (List Int) :=
  ((h.zip mask).map (fun p => maskedRow p.1 p.2)).flatten

/-- Number of positive entries of one attention-mask row, i.e. its number of
non-padding positions. -/
def rowPosCount (maskRow : List Int) : Nat :=
  (maskRow.filter (fun v => 0 < v)).length

/-- Total number of non-padding token positions of a batch attention mask. -/
def totalNonPad (mask : List (List Int)) : Nat :=
  (mask.map rowPosCount).sum

/-- Source lines 271-275: the flat token list of the multi-sentence path,
dropping tokens equal to `[PAD]`. -/
def longTokens (tokenizer : TokBehavior) (input_ids : List (List Int)) : List String :=
  (input_ids.map (fun ids =>
    (tokenizer.convert_ids_to_tokens ids).filter (fun t => t != "[PAD]"))).flatten

/-- Multi-sentence branch of the per-string loop (source lines 259-291). -/
def longPath (st : String → List String) (tokenizer : TokBehavior)
    (tm : ModelBehavior) (layers : Option (List Int)) (return_tokens : Bool)
    (model_max_length : Option Nat) (text_string : String) :
    Option (List (List (List (List Int))) × List String) := do
  let sentence_batch := st text_string
  let batch := tokenizer.tok_batch sentence_batch model_max_length
  let input_ids ← toTensor2 batch.1
  let attention_mask ← toTensor2 batch.2
  let tokens := if return_tokens then longTokens tokenizer input_ids else []
  let hidden_states ← selectLayers layers (tm.forward input_ids (some attention_mask))
  let sent_embedding ← listMapM (fun h => layerConcat h attention_mask) hidden_states
  pure (sent_embedding.map (fun l => [l]), tokens)

/-- Single-sequence branch of the per-string loop (source lines 292-309). -/
def shortPath (tokenizer : TokBehavior) (tm : ModelBehavior)
    (layers : Option (List Int)) (return_tokens : Bool) (text_string : String) :
    Option (List (List (List (List Int))) × List String) := do
  let input_ids := tokenizer.encode text_string
  let tokens := if return_tokens then tokenizer.convert_ids_to_tokens input_ids else []
  let hidden_states ← selectLayers layers (tm.forward [input_ids] none)
  pure (hidden_states, tokens)

/-- One iteration of the loop over `text_strings` (source lines 256-309):
the pair of the appended embedding entry and the appended token entry (the
token entry stays `[]` when `return_tokens` is false, mirroring that nothing
is appended to `all_toks`). -/
def processString (st : String → List String) (tokenizer : TokBehavior)
    (tm : ModelBehavior) (layers : Option (List Int)) (return_tokens : Bool)
    (max_token_to_sentence : Nat) (model_max_length : Option Nat)
    (text_string : String) :
    Option (List (List (List (List Int))) × List String) :=
  if text_string.length > max_token_to_sentence * 4 then
    longPath st tokenizer tm layers return_tokens model_max_length text_string
  else
    shortPath tokenizer tm layers return_tokens text_string

/-- Model of `hgTransformerGetEmbedding` (source lines 182-314).  Here `st` models
`nltk.sent_tokenize`; `lenv`/`tenv` the loader and torch environments.  The
result pairs `all_embs` with `all_toks`; the Python function returns only
`all_embs` when `return_tokens` is false (and `all_toks` then stays empty).
Device placement (`model.to(...)`, `tensor.to(...)`) changes no values and is
elided; the layer-argument coercion of source lines 248-251 is the identity
on an already-integer list. -/
def hgTransformerGetEmbedding {C : Type} (st : String → List String)
    (lenv : LoaderEnv C TokBehavior ModelBehavior) (tenv : TorchEnv)
    (text_strings : StrOrList) (model : String) (layers : Option (List Int))
    (return_tokens : Bool) (max_token_to_sentence : Nat) (device : String)
    (model_max_length : Option Nat) :
    Option (List (List (List (List (List Int)))) × List (List String)) := do
  let (_w1, device1, _n1) ← get_device tenv device
  let device2 := normDevice device1
  let (_config, tokenizer, transformer_model) ← get_model lenv model
  let (_w3, _device3, _n3) ← get_device tenv device2
  let _max_tokens := tokenizer.max_len_sentences_pair
  let ts := coerceStrings text_strings
  let rs ← listMapM
    (processString st tokenizer transformer_model layers return_tokens
      max_token_to_sentence model_max_length) ts
  pure (rs.map Prod.fst, if return_tokens then rs.map Prod.snd else [])

/-! ### Concrete toy environments

A small tokenizer/model pair with realistic shapes (two sentences, padded
width 3, one layer, one feature per token), used to witness the theorems. -/

/-- Toy sentence tokenizer: every document splits into the two sentences
`x` and `y`. -/
def toySent : String → List String := fun _ => ["x", "y"]

/-- Toy tokenizer: the two sentences tokenize to 2 and 1 real tokens, padded
to width 3; id 0 is the padding id. -/
def toyTok : TokBehavior where
  tok_batch := fun _ _ => ([[1, 2, 0], [3, 0, 0]], [[1, 1, 0], [1, 0, 0]])
  encode := fun _ => [7, 8]
  convert_ids_to_tokens := fun ids => ids.map (fun v => if v == 0 then ("[PAD]") else ("T"))
  max_len_sentences_pair := 512

/-- Toy transformer: one hidden-state layer embedding every token id as the
one-dimensional vector containing itself. -/
def toyModel : ModelBehavior where
  forward := fun ids _ => [ids.map (fun r => r.map (fun v => [v]))]

/-- Torch runtime without accelerators. -/
def toyTorch : TorchEnv := ⟨false, 0⟩

/-- Torch runtime with three CUDA devices. -/
def toyTorchG : TorchEnv := ⟨true, 3⟩

/-- Toy loader environment resolving every identifier to the toy objects. -/
def toyLenv : LoaderEnv Unit TokBehavior ModelBehavior where
  megatron_import_ok := true
  autoConfig := fun _ _ => ()
  autoTokenizer := fun _ => toyTok
  autoModel := fun _ _ => toyModel
  bertTokenizer := fun _ => toyTok
  megatronModel := fun _ _ => toyModel

/-- Toy loader environment in which the megatron-bert import fails. -/
def toyLenvNoMega : LoaderEnv Unit TokBehavior ModelBehavior :=
  { toyLenv with megatron_import_ok := false }

/-- Toy per-string sentiment scorer. -/
def toyScore : PipelineArgs TokBehavior → String → String × Int := fun _ _ => ("POS", 1)

/-! ### Claim-side predicates (formalizations of spec sentences) -/

/-- The nesting asserted by claim C2: in each returned embedding entry the
index directly below the layer index is the token position, so (padding being
excluded) each per-layer entry has the length of the corresponding returned
token list. -/
def tokenUnderLayer (embs : List (List (List (List (List Int)))))
    (toks : List (List String)) : Prop :=
  ∀ i < embs.length, ∀ le ∈ embs.getD i [], le.length = (toks.getD i []).length

/-- The invariant asserted by claim C5 for one input string: the returned
index is -1 exactly when the returned device denotes CPU, and a non-negative
index comes with an accelerator device kind. -/
def claimC5 (tenv : TorchEnv) (device : String) : Prop :=
  ∀ w d k, get_device tenv device = some (w, d, k) →
    ((k = -1 ↔ pyStartsWith ("cpu") d)
      ∧ (0 ≤ k → (pyStartsWith ("gpu") d ∨ pyStartsWith ("cuda") d)))

/-! ### Helper lemmas -/

theorem listMapM_eq_some_map {α β : Type} (f : α → Option β) (g : α → β) :
    ∀ xs : List α, (∀ x ∈ xs, f x = some (g x)) → listMapM f xs = some (xs.map g)
  | [], _ => rfl
  | x :: xs, h => by
    have hx := h x (List.mem_cons_self x xs)
    have ih := listMapM_eq_some_map f g xs (fun a ha => h a (List.mem_cons_of_mem _ ha))
    simp [listMapM, hx, ih]

theorem listMapM_some_mem {α β : Type} (f : α → Option β) :
    ∀ (xs : List α) (ys : List β), listMapM f xs = some ys →
      ∀ y ∈ ys, ∃ x ∈ xs, f x = some y := by
  intro xs
  induction xs with
  | nil =>
    intro ys hys y hy
    simp [listMapM] at hys
    subst hys
    simp at hy
  | cons x xs ih =>
    intro ys hys y hy
    simp only [listMapM] at hys
    cases hfx : f x with
    | none => rw [hfx] at hys; simp at hys
    | some y0 =>
      rw [hfx] at hys
      cases hm : listMapM f xs with
      | none => rw [hm] at hys; simp at hys
      | some ys0 =>
        rw [hm] at hys
        simp at hys
        subst hys
        rcases List.mem_cons.mp hy with rfl | hmem
        · exact ⟨x, List.mem_cons_self x xs, hfx⟩
        · rcases ih ys0 hm y hmem with ⟨a, ha, hfa⟩
          exact ⟨a, List.mem_cons_of_mem _ ha, hfa⟩

theorem pyGet_mem {α : Type} (xs : List α) (i : Int) (a : α) :
    pyGet xs i = some a → a ∈ xs := by
  unfold pyGet
  split
  · exact fun h => List.get?_mem h
  · split
    · exact fun h => List.get?_mem h
    · intro h; cases h

theorem selectLayers_mem (layers : Option (List Int)) (hs hss : List LayerTensor)
    (hsel : selectLayers layers hs = some hss) : ∀ h ∈ hss, h ∈ hs := by
  intro h hh
  cases layers with
  | none =>
    simp [selectLayers] at hsel
    subst hsel
    exact hh
  | some ls =>
    simp only [selectLayers] at hsel
    rcases listMapM_some_mem _ ls hss hsel h hh with ⟨l, _, hl⟩
    exact pyGet_mem hs l h hl

theorem rectangular_of_uniform {α : Type} (rows : List (List α)) (W : Nat)
    (h : ∀ r ∈ rows, r.length = W) : rectangular rows = true := by
  cases rows with
  | nil => rfl
  | cons r rs =>
    simp only [rectangular, List.all_eq_true]
    intro x hx
    rw [beq_iff_eq, h x (List.mem_cons_of_mem _ hx), h r (List.mem_cons_self _ _)]

theorem toTensor2_of_uniform {α : Type} (rows : List (List α)) (W : Nat)
    (h : ∀ r ∈ rows, r.length = W) : toTensor2 rows = some rows := by
  unfold toTensor2
  rw [if_pos (rectangular_of_uniform rows W h)]

theorem maskedRow_cons {α : Type} (a : α) (as : List α) (b : Int) (bs : List Int) :
    maskedRow (a :: as) (b :: bs)
      = if 0 < b then a :: maskedRow as bs else maskedRow as bs := by
  by_cases hb : 0 < b <;> simp [maskedRow, hb]

theorem rowPosCount_cons (b : Int) (bs : List Int) :
    rowPosCount (b :: bs)
      = if 0 < b then rowPosCount bs + 1 else rowPosCount bs := by
  by_cases hb : 0 < b <;> simp [rowPosCount, List.filter_cons, hb]

theorem maskedRow_length {α : Type} :
    ∀ (row : List α) (mrow : List Int), row.length = mrow.length →
      (maskedRow row mrow).length = rowPosCount mrow
  | [], [], _ => rfl
  | [], v :: vs, h => nomatch h
  | u :: us, [], h => nomatch h
  | a :: as, b :: bs, h => by
    have ih := maskedRow_length as bs (by simpa using h)
    by_cases hb : 0 < b <;>
      simp [maskedRow_cons, rowPosCount_cons, hb, ih]

theorem rowPosCount_le (mrow : List Int) : rowPosCount mrow ≤ mrow.length :=
  List.length_filter_le _ mrow

theorem flatMasked_cons (a : List (List Int)) (h : LayerTensor)
    (b : List Int) (mask : List (List Int)) :
    flatMasked (a :: h) (b :: mask) = maskedRow a b ++ flatMasked h mask := by
  simp [flatMasked]

theorem flatMasked_length :
    ∀ (h : LayerTensor) (mask : List (List Int)), h.length = mask.length →
      (∀ p ∈ h.zip mask, p.1.length = p.2.length) →
      (flatMasked h mask).length = totalNonPad mask
  | [], [], _, _ => rfl
  | [], brow :: brows, hl, _ => by simp at hl
  | arow :: arows, [], hl, _ => by simp at hl
  | a :: as, b :: bs, hl, hp => by
    have h1 : a.length = b.length := hp (a, b) (by simp)
    have ih := flatMasked_length as bs (by simpa using hl)
      (fun p hp2 => hp p (by simp [hp2]))
    simp [flatMasked_cons, totalNonPad, maskedRow_length a b h1]
    simpa [totalNonPad] using ih

theorem list_sum_le_mul (W : Nat) :
    ∀ xs : List Nat, (∀ x ∈ xs, x ≤ W) → xs.sum ≤ xs.length * W
  | [], _ => by simp
  | a :: l, h => by
    have ha := h a (List.mem_cons_self _ _)
    have ih := list_sum_le_mul W l (fun x hx => h x (List.mem_cons_of_mem _ hx))
    simp only [List.sum_cons, List.length_cons, Nat.succ_mul]
    omega

theorem list_sum_lt_mul (W : Nat) :
    ∀ xs : List Nat, (∀ x ∈ xs, x ≤ W) → (∃ x ∈ xs, x < W) →
      xs.sum < xs.length * W
  | [], _, hex => by simp at hex
  | a :: l, h, hex => by
    have ha := h a (List.mem_cons_self _ _)
    have hl := list_sum_le_mul W l (fun x hx => h x (List.mem_cons_of_mem _ hx))
    rcases hex with ⟨x, hx, hxW⟩
    rcases List.mem_cons.mp hx with rfl | hxl
    · simp only [List.sum_cons, List.length_cons, Nat.succ_mul]
      omega
    · have hs := list_sum_lt_mul W l
        (fun z hz => h z (List.mem_cons_of_mem _ hz)) ⟨x, hxl, hxW⟩
      simp only [List.sum_cons, List.length_cons, Nat.succ_mul]
      omega

theorem map_sum_zip {α β : Type} (g : α → Nat) (φ : β → Nat) :
    ∀ (as : List α) (bs : List β), as.length = bs.length →
      (∀ p ∈ as.zip bs, g p.1 = φ p.2) → (as.map g).sum = (bs.map φ).sum
  | [], [], _, _ => rfl
  | [], y :: ys, hlen, _ => absurd hlen (by simp)
  | x :: xs, [], hlen, _ => absurd hlen (by simp)
  | x :: xs, y :: ys, hlen, hq => by
    have hxy : g x = φ y := hq (x, y) (by simp)
    have ih := map_sum_zip g φ xs ys (by simpa using hlen)
      (fun p hp2 => hq p (by simp [hp2]))
    simp [hxy, ih]

theorem layerConcat_eq (h : LayerTensor) (mask : List (List Int))
    (hl : h.length ≤ mask.length)
    (hp : ∀ p ∈ h.zip mask, p.1.length ≤ p.2.length) :
    layerConcat h mask = some (flatMasked h mask) := by
  unfold layerConcat
  rw [if_pos hl]
  have hmm : listMapM (fun p => maskFilterRow p.1 p.2) (h.zip mask)
      = some ((h.zip mask).map (fun p => maskedRow p.1 p.2)) :=
    listMapM_eq_some_map _ _ _ (fun p hp2 => by
      unfold maskFilterRow
      rw [if_pos (hp p hp2)])
  rw [hmm]
  simp [flatMasked]

/-- Unfolding of the full embedding entry point for a single-string input on
device `cpu` (both `get_device` calls then succeed without warnings), given
that the model loads. -/
theorem hgEmbedding_cpu_single {C : Type} (st : String → List String)
    (lenv : LoaderEnv C TokBehavior ModelBehavior) (tenv : TorchEnv)
    (config : C) (tok : TokBehavior) (tm : ModelBehavior) (model : String)
    (layers : Option (List Int)) (rt : Bool) (m : Nat) (mml : Option Nat)
    (s : String)
    (hm : get_model lenv model = some (config, tok, tm)) :
    hgTransformerGetEmbedding st lenv tenv (Sum.inl s) model layers rt m ("cpu") mml
      = (processString st tok tm layers rt m mml s).map
          (fun r => ([r.1], if rt then [r.2] else [])) := by
  have hdev : get_device tenv ("cpu") = some ([], "cpu", -1) := rfl
  have hnorm : normDevice ("cpu") = "cpu" := rfl
  unfold hgTransformerGetEmbedding
  rw [hdev]
  simp only [Option.some_bind, hnorm, hdev, hm, coerceStrings, listMapM]
  cases hps : processString st tok tm layers rt m mml s <;> simp [hps, hnorm, hdev]

/-! ### Claim theorems -/

/-- Claim C6: for every input string, `hgTransformerGetEmbedding` takes the
sentence-splitting path exactly when the string's character length is
strictly greater than `max_token_to_sentence * 4`; otherwise it tokenizes the
whole string as a single sequence with special tokens added (`encode`) and
applies no padding filtering to the collected hidden states. -/
theorem C6_path_dispatch {C : Type} (st : String → List String)
    (lenv : LoaderEnv C TokBehavior ModelBehavior) (tenv : TorchEnv)
    (config : C) (tok : TokBehavior) (tm : ModelBehavior) (model : String)
    (layers : Option (List Int)) (rt : Bool) (m : Nat) (mml : Option Nat)
    (s : String)
    (hm : get_model lenv model = some (config, tok, tm)) :
    hgTransformerGetEmbedding st lenv tenv (Sum.inl s) model layers rt m ("cpu") mml
      = (processString st tok tm layers rt m mml s).map
          (fun r => ([r.1], if rt then [r.2] else []))
    ∧ (s.length > m * 4 →
        processString st tok tm layers rt m mml s
          = longPath st tok tm layers rt mml s)
    ∧ (¬ s.length > m * 4 →
        processString st tok tm layers rt m mml s
          = (selectLayers layers (tm.forward [tok.encode s] none)).map
              (fun hss =>
                (hss, if rt then tok.convert_ids_to_tokens (tok.encode s) else []))) := by
  refine ⟨hgEmbedding_cpu_single st lenv tenv config tok tm model layers rt m mml s hm,
    ?_, ?_⟩
  · intro h
    simp [processString, h]
  · intro h
    simp only [processString, if_neg h, shortPath]
    cases hsel : selectLayers layers (tm.forward [tok.encode s] none) <;>
      simp [hsel]

/-- Witness for C6 at the toy environment (single-sequence side of the
dispatch: a 1-character string with threshold 20). -/
theorem C6_witness :
    (hgTransformerGetEmbedding toySent toyLenv toyTorch (Sum.inl ("z")) ("bert")
        none true 5 ("cpu") none
      = (processString toySent toyTok toyModel none true 5 none ("z")).map
          (fun r => ([r.1], if true then [r.2] else [])))
    ∧ ("z".length > 5 * 4 →
        processString toySent toyTok toyModel none true 5 none ("z")
          = longPath toySent toyTok toyModel none true none ("z"))
    ∧ (¬ "z".length > 5 * 4 →
        processString toySent toyTok toyModel none true 5 none ("z")
          = (selectLayers none (toyModel.forward [toyTok.encode ("z")] none)).map
              (fun hss =>
                (hss, if true then toyTok.convert_ids_to_tokens (toyTok.encode ("z")) else []))) :=
  C6_path_dispatch toySent toyLenv toyTorch () toyTok toyModel ("bert")
    none true 5 none ("z") rfl

/-- Claim C10: the `model_max_length` argument is forwarded to the tokenizer
only on the multi-sentence path; a string at most `max_token_to_sentence * 4`
characters long is processed identically for every value of
`model_max_length` (the single-sequence path calls `tokenizer.encode` with no
maximum length and no truncation). -/
theorem C10_short_path_ignores_max_length (st : String → List String)
    (tok : TokBehavior) (tm : ModelBehavior) (layers : Option (List Int))
    (rt : Bool) (m : Nat) (mml : Option Nat) (s : String)
    (h : ¬ s.length > m * 4) :
    processString st tok tm layers rt m mml s
      = processString st tok tm layers rt m none s := by
  simp [processString, h]

/-- Witness for C10: a short string with `model_max_length = some 2` versus
`none`. -/
theorem C10_witness :
    processString toySent toyTok toyModel none true 5 (some 2) ("z")
      = processString toySent toyTok toyModel none true 5 none ("z") :=
  C10_short_path_ignores_max_length toySent toyTok toyModel none true 5
    (some 2) ("z") (by decide)

/-- Claim C1: for an input string longer than `max_token_to_sentence * 4`
characters, the embedding function splits it into sentences, and for each
requested layer the flat per-layer sequence consists exactly of the token
positions with a positive attention-mask value, concatenated across the
sentences in order; its length is the total non-padding token count of the
batch and is strictly below `(number of sentences) * (padded batch width)`
whenever two sentences have unequal non-padding token counts.  The shape
hypotheses state the tokenizer/model contract: one `input_ids` and one
`attention_mask` row per sentence, all rows padded to the common width `W`,
and hidden states with one row per sentence of width `W` for each selected
layer. -/
theorem C1_long_path_mask_concat {C : Type} (st : String → List String)
    (lenv : LoaderEnv C TokBehavior ModelBehavior) (tenv : TorchEnv)
    (config : C) (tok : TokBehavior) (tm : ModelBehavior) (model : String)
    (layers : Option (List Int)) (rt : Bool) (m : Nat) (mml : Option Nat)
    (s : String) (ids0 mask0 : List (List Int)) (hss : List LayerTensor)
    (W : Nat)
    (hm : get_model lenv model = some (config, tok, tm))
    (hlen : s.length > m * 4)
    (hb : tok.tok_batch (st s) mml = (ids0, mask0))
    (hSi : ids0.length = (st s).length)
    (hSm : mask0.length = (st s).length)
    (hWi : ∀ r ∈ ids0, r.length = W)
    (hWm : ∀ r ∈ mask0, r.length = W)
    (hsel : selectLayers layers (tm.forward ids0 (some mask0)) = some hss)
    (hhb : ∀ h ∈ hss, h.length = (st s).length)
    (hhw : ∀ h ∈ hss, ∀ row ∈ h, row.length = W) :
    hgTransformerGetEmbedding st lenv tenv (Sum.inl s) model layers rt m ("cpu") mml
      = some ([hss.map (fun h => [flatMasked h mask0])],
              if rt then [longTokens tok ids0] else [])
    ∧ (∀ h ∈ hss, (flatMasked h mask0).length = totalNonPad mask0)
    ∧ ((∃ r1 ∈ mask0, ∃ r2 ∈ mask0, rowPosCount r1 ≠ rowPosCount r2) →
        totalNonPad mask0 < (st s).length * W) := by
  have hps : processString st tok tm layers rt m mml s
      = some (hss.map (fun h => [flatMasked h mask0]),
              if rt then longTokens tok ids0 else []) := by
    have hconcat : ∀ h ∈ hss, layerConcat h mask0 = some (flatMasked h mask0) := by
      intro h hh
      apply layerConcat_eq
      · rw [hhb h hh, hSm]
      · intro p hp
        rcases List.of_mem_zip hp with ⟨h1, h2⟩
        rw [hhw h hh p.1 h1, hWm p.2 h2]
    have hmapM := listMapM_eq_some_map (fun h => layerConcat h mask0)
      (fun h => flatMasked h mask0) hss hconcat
    simp [processString, if_pos hlen, longPath, hb,
      toTensor2_of_uniform ids0 W hWi, toTensor2_of_uniform mask0 W hWm,
      hsel, hmapM]
  refine ⟨?_, ?_, ?_⟩
  · rw [hgEmbedding_cpu_single st lenv tenv config tok tm model layers rt m mml s hm,
      hps]
    cases rt <;> simp
  · intro h hh
    apply flatMasked_length
    · rw [hhb h hh, hSm]
    · intro p hp
      rcases List.of_mem_zip hp with ⟨h1, h2⟩
      rw [hhw h hh p.1 h1, hWm p.2 h2]
  · rintro ⟨r1, hr1, r2, hr2, hne⟩
    have hle : ∀ x ∈ mask0.map rowPosCount, x ≤ W := by
      intro x hx
      rcases List.mem_map.mp hx with ⟨r, hr, rfl⟩
      calc rowPosCount r ≤ r.length := rowPosCount_le r
        _ = W := hWm r hr
    have hWr1 : rowPosCount r1 ≤ W := hle _ (List.mem_map_of_mem _ hr1)
    have hWr2 : rowPosCount r2 ≤ W := hle _ (List.mem_map_of_mem _ hr2)
    have hex : ∃ x ∈ mask0.map rowPosCount, x < W := by
      rcases Nat.lt_or_ge (rowPosCount r1) (rowPosCount r2) with hlt | hge
      · exact ⟨rowPosCount r1, List.mem_map_of_mem _ hr1, Nat.lt_of_lt_of_le hlt hWr2⟩
      · have hlt2 : rowPosCount r2 < rowPosCount r1 :=
          Nat.lt_of_le_of_ne hge (fun hc => hne hc.symm)
        exact ⟨rowPosCount r2, List.mem_map_of_mem _ hr2, Nat.lt_of_lt_of_le hlt2 hWr1⟩
    have hlt := list_sum_lt_mul W (mask0.map rowPosCount) hle hex
    simp only [List.length_map] at hlt
    rw [totalNonPad, hSm] at *
    exact hSm ▸ hlt

/-- Witness for C1 at the toy environment: two sentences of non-padding token
counts 2 and 1, padded width 3, one layer; total of 3 non-padding positions,
strictly below 2 * 3. -/
theorem C1_witness :
    hgTransformerGetEmbedding toySent toyLenv toyTorch (Sum.inl ("z")) ("bert")
        none true 0 ("cpu") none
      = some ([[[[[1], [2], [3]]]]], [["T", "T", "T"]])
    ∧ (flatMasked [[[1], [2], [0]], [[3], [0], [0]]] [[1, 1, 0], [1, 0, 0]]).length
        = totalNonPad [[1, 1, 0], [1, 0, 0]]
    ∧ totalNonPad [[1, 1, 0], [1, 0, 0]] < (toySent ("z")).length * 3 := by
  have h := C1_long_path_mask_concat toySent toyLenv toyTorch () toyTok toyModel
    "bert" none true 0 none ("z") [[1, 2, 0], [3, 0, 0]] [[1, 1, 0], [1, 0, 0]]
    [[[[1], [2], [0]], [[3], [0], [0]]]] 3
    rfl (by decide) rfl (by decide) (by decide) (by decide) (by decide) rfl
    (by decide) (by decide)
  exact ⟨h.1, h.2.1 [[[1], [2], [0]], [[3], [0], [0]]] (by simp), h.2.2 (by decide)⟩

theorem toTensor2_some_eq {α : Type} {rows rows2 : List (List α)} :
    toTensor2 rows = some rows2 → rows2 = rows := by
  unfold toTensor2
  split
  · intro h
    exact (Option.some.inj h).symm
  · intro h
    cases h

theorem longPath_eq_some {st : String → List String} {tok : TokBehavior}
    {tm : ModelBehavior} {layers : Option (List Int)} {rt : Bool}
    {mml : Option Nat} {s : String}
    {r : List (List (List (List Int))) × List String} :
    longPath st tok tm layers rt mml s = some r →
    ∃ input_ids attention_mask hss se,
      toTensor2 (tok.tok_batch (st s) mml).1 = some input_ids
      ∧ toTensor2 (tok.tok_batch (st s) mml).2 = some attention_mask
      ∧ selectLayers layers (tm.forward input_ids (some attention_mask)) = some hss
      ∧ listMapM (fun h => layerConcat h attention_mask) hss = some se
      ∧ r = (se.map (fun l => [l]),
             if rt then longTokens tok input_ids else []) := by
  intro hr
  simp only [longPath, bind, Option.bind_eq_some, Option.pure_def,
    Option.some.injEq] at hr
  rcases hr with ⟨ids, h1, mask, h2, hss, h3, se, h4, h5⟩
  exact ⟨ids, mask, hss, se, h1, h2, h3, h4, h5.symm⟩

theorem shortPath_eq_some {tok : TokBehavior} {tm : ModelBehavior}
    {layers : Option (List Int)} {rt : Bool} {s : String}
    {r : List (List (List (List Int))) × List String} :
    shortPath tok tm layers rt s = some r →
    ∃ hss, selectLayers layers (tm.forward [tok.encode s] none) = some hss
      ∧ r = (hss, if rt then tok.convert_ids_to_tokens (tok.encode s) else []) := by
  intro hr
  simp only [shortPath, bind, Option.bind_eq_some, Option.pure_def,
    Option.some.injEq] at hr
  rcases hr with ⟨hss, h1, h2⟩
  exact ⟨hss, h1, h2.symm⟩

/-- Claim C2 is false as stated: in the value returned for a 3-token document
the list directly below the layer index has length 1 (a singleton batch
dimension), not the token count 3, so the index directly below the layer is
not the token position. -/
theorem C2_counterexample :
    hgTransformerGetEmbedding toySent toyLenv toyTorch (Sum.inl ("z")) ("bert")
        none true 0 ("cpu") none
      = some ([[[[[1], [2], [3]]]]], [["T", "T", "T"]])
    ∧ ¬ tokenUnderLayer [[[[[1], [2], [3]]]]] [["T", "T", "T"]] := by
  constructor
  · rfl
  · intro h
    have h0 := h 0 (by decide) [[[1], [2], [3]]] (by simp)
    simp at h0

/-- Claim C2 amended: in each returned embedding entry the index below the
layer index is a singleton batch dimension (the one-sentence forward pass of
the single-sequence path, resp. the explicit re-wrapping of the concatenated
sequence in the multi-sentence path); the token positions, with padding
excluded on the multi-sentence path, sit inside that singleton, the feature
vectors innermost.  The nesting is the same for both paths: every per-layer
entry of the per-string result has length 1. -/
theorem C2_amended_singleton_batch (st : String → List String)
    (tok : TokBehavior) (tm : ModelBehavior) (layers : Option (List Int))
    (rt : Bool) (m : Nat) (mml : Option Nat) (s : String)
    (r : List (List (List (List Int))) × List String)
    (hfb1 : ∀ h ∈ tm.forward [tok.encode s] none, h.length = 1)
    (hr : processString st tok tm layers rt m mml s = some r) :
    ∀ le ∈ r.1, le.length = 1 := by
  intro le hle
  by_cases hc : s.length > m * 4
  · simp only [processString, if_pos hc] at hr
    rcases longPath_eq_some hr with ⟨ids, mask, hss, se, _, _, _, _, hre⟩
    subst hre
    simp only [List.mem_map] at hle
    rcases hle with ⟨l, _, rfl⟩
    rfl
  · simp only [processString, if_neg hc] at hr
    rcases shortPath_eq_some hr with ⟨hss, hsel, hre⟩
    subst hre
    exact hfb1 le (selectLayers_mem layers _ hss hsel le hle)

/-- Witness for the amended C2 at the toy environment (single-sequence path:
one layer entry, of length 1). -/
theorem C2_amended_witness :
    ([[[(7 : Int)], [8]]] : List (List (List Int))).length = 1 :=
  C2_amended_singleton_batch toySent toyTok toyModel none true 5 none ("z")
    ([[[[7], [8]]]], ["T", "T"]) (by decide) rfl
    [[[7], [8]]] (by simp)

/-- Claim C3: with `return_tokens = true` the returned token list of an input
string has exactly the length of the token dimension of the corresponding
returned embedding, for each layer, on both paths.  The hypotheses express
the tokenizer/model contract: on the batch used by the multi-sentence path
the per-sentence count of non-`[PAD]` tokens equals the count of positive
attention-mask entries, rows are padded to a common width `W` with one hidden
state row per sentence, and on the single-sequence path `convert_ids_to_tokens`
is length-preserving while the forward pass returns, per layer, one row of
the tokenized length. -/
theorem C3_token_count (st : String → List String) (tok : TokBehavior)
    (tm : ModelBehavior) (layers : Option (List Int)) (m : Nat)
    (mml : Option Nat) (s : String) (ids0 mask0 : List (List Int)) (W : Nat)
    (hb : tok.tok_batch (st s) mml = (ids0, mask0))
    (hS : ids0.length = mask0.length)
    (hWi : ∀ r ∈ ids0, r.length = W)
    (hWm : ∀ r ∈ mask0, r.length = W)
    (hpad : ∀ p ∈ ids0.zip mask0,
      ((tok.convert_ids_to_tokens p.1).filter (fun t => t != "[PAD]")).length
        = rowPosCount p.2)
    (hfw : ∀ h ∈ tm.forward ids0 (some mask0),
      h.length = mask0.length ∧ ∀ row ∈ h, row.length = W)
    (hconv : (tok.convert_ids_to_tokens (tok.encode s)).length
        = (tok.encode s).length)
    (hfw1 : ∀ h ∈ tm.forward [tok.encode s] none,
      h.length = 1 ∧ ∀ row ∈ h, row.length = (tok.encode s).length)
    (r : List (List (List (List Int))) × List String)
    (hr : processString st tok tm layers true m mml s = some r) :
    ∀ le ∈ r.1, (le.headD []).length = r.2.length := by
  intro le hle
  by_cases hc : s.length > m * 4
  · simp only [processString, if_pos hc] at hr
    rcases longPath_eq_some hr with ⟨ids, mask, hss, se, h1, h2, h3, h4, h5⟩
    rw [hb] at h1 h2
    have hids : ids = ids0 := toTensor2_some_eq h1
    have hmask : mask = mask0 := toTensor2_some_eq h2
    rw [hids, hmask] at h3
    rw [hmask] at h4
    rw [hids] at h5
    have hmemF : ∀ h ∈ hss, h ∈ tm.forward ids0 (some mask0) :=
      selectLayers_mem layers _ hss h3
    have hconcat : ∀ h ∈ hss, layerConcat h mask0 = some (flatMasked h mask0) := by
      intro h hh
      apply layerConcat_eq
      · exact Nat.le_of_eq (hfw h (hmemF h hh)).1
      · intro p hp
        rcases List.of_mem_zip hp with ⟨hp1, hp2⟩
        rw [(hfw h (hmemF h hh)).2 p.1 hp1, hWm p.2 hp2]
    have hse : se = hss.map (fun h => flatMasked h mask0) :=
      Option.some.inj
        (h4.symm.trans (listMapM_eq_some_map _ _ hss hconcat))
    subst hse
    subst h5
    show (le.headD []).length = (longTokens tok ids0).length
    simp only [List.map_map] at hle
    rcases List.mem_map.mp hle with ⟨h, hh, hle2⟩
    have hhead : le.headD [] = flatMasked h mask0 := by
      rw [← hle2]
      rfl
    have hflat : (flatMasked h mask0).length = totalNonPad mask0 := by
      apply flatMasked_length
      · exact (hfw h (hmemF h hh)).1
      · intro p hp
        rcases List.of_mem_zip hp with ⟨hp1, hp2⟩
        rw [(hfw h (hmemF h hh)).2 p.1 hp1, hWm p.2 hp2]
    have htoks : (longTokens tok ids0).length = totalNonPad mask0 := by
      have hsum := map_sum_zip
        (fun rrow => ((tok.convert_ids_to_tokens rrow).filter
          (fun t => t != "[PAD]")).length)
        rowPosCount ids0 mask0 hS hpad
      simp only [longTokens, List.length_flatten, List.map_map]
      exact hsum.trans rfl
    rw [hhead, hflat]
    exact htoks.symm
  · simp only [processString, if_neg hc] at hr
    rcases shortPath_eq_some hr with ⟨hss, hsel, hre⟩
    subst hre
    have hmem : le ∈ tm.forward [tok.encode s] none :=
      selectLayers_mem layers _ hss hsel le hle
    rcases hfw1 le hmem with ⟨hl1, hrow⟩
    rcases List.length_eq_one.mp hl1 with ⟨row, hrow1⟩
    have hrl : row.length = (tok.encode s).length :=
      hrow row (by rw [hrow1]; simp)
    simp only [hrow1, List.headD_cons]
    rw [hrl]
    exact hconv.symm

/-- Witness for C3 at the toy environment (multi-sentence path: three
non-padding tokens, three non-`[PAD]` token strings). -/
theorem C3_witness :
    (([[[(1 : Int)], [2], [3]]] : List (List (List Int))).headD []).length
      = (["T", "T", "T"] : List String).length :=
  C3_token_count toySent toyTok toyModel none 0 none ("z")
    [[1, 2, 0], [3, 0, 0]] [[1, 1, 0], [1, 0, 0]] 3
    rfl (by decide) (by decide) (by decide) (by decide) (by decide) (by decide)
    (by decide)
    ([[[[1], [2], [3]]]], ["T", "T", "T"]) rfl
    [[[1], [2], [3]]] (by simp)

/-- Claim C4: `get_device` is total and never raises — under the torch
invariant that an available CUDA runtime reports at least one device — and
every unrecognized or unattachable spec degrades to `("cpu", -1)` after
printing a warning. -/
theorem C4_get_device_total (tenv : TorchEnv)
    (hta : tenv.cuda_available = true → 0 < tenv.cuda_device_count)
    (device : String) :
    (∃ w d k, get_device tenv device = some (w, d, k))
    ∧ (recognizedDevice device = false →
        get_device tenv device = some (normWarn device, "cpu", -1)
        ∧ normWarn device ≠ [])
    ∧ (normDevice device ≠ "cpu" →
        deviceAttach tenv (normDevice device) = some none →
        get_device tenv device
          = some (normWarn device ++ ["Unable to use CUDA (GPU), using CPU"],
              "cpu", -1)
        ∧ normWarn device ++ ["Unable to use CUDA (GPU), using CPU"] ≠ []) := by
  refine ⟨?_, ?_, ?_⟩
  · by_cases hd : normDevice device = "cpu"
    · exact ⟨normWarn device, "cpu", -1, by simp [get_device, hd]⟩
    · have hat : deviceAttach tenv (normDevice device) ≠ none := by
        unfold deviceAttach
        cases hav : tenv.cuda_available with
        | false => simp
        | true =>
          simp only [if_true]
          by_cases hgc : normDevice device = "gpu" ∨ normDevice device = "cuda"
          · rw [if_pos hgc]
            have hc := hta hav
            cases hcd : tenv.cuda_device_count with
            | zero => rw [hcd] at hc; omega
            | succ n =>
              simp [List.range_succ_eq_map]
          · rw [if_neg hgc]
            simp
      cases hattach : deviceAttach tenv (normDevice device) with
      | none => exact absurd hattach hat
      | some o =>
        cases o with
        | none =>
          exact ⟨normWarn device ++ ["Unable to use CUDA (GPU), using CPU"],
            "cpu", -1, by simp [get_device, hd, hattach]⟩
        | some k =>
          exact ⟨normWarn device, normDevice device, k,
            by simp [get_device, hd, hattach]⟩
  · intro h
    have hd : normDevice device = "cpu" := by simp [normDevice, h]
    constructor
    · simp [get_device, hd, normWarn, h]
    · simp [normWarn, h]
  · intro h1 h2
    constructor
    · simp [get_device, h1, h2]
    · simp

/-- Witness for C4, applying it to an unattachable recognized spec (`gpu`
without CUDA) and to an unrecognized spec (`tpu`). -/
theorem C4_witness :
    (get_device toyTorch ("gpu")
      = some (normWarn ("gpu") ++ ["Unable to use CUDA (GPU), using CPU"],
          "cpu", -1)
      ∧ normWarn ("gpu") ++ ["Unable to use CUDA (GPU), using CPU"] ≠ [])
    ∧ (get_device toyTorch ("tpu") = some (normWarn ("tpu"), "cpu", -1)
      ∧ normWarn ("tpu") ≠ []) :=
  ⟨(C4_get_device_total toyTorch (by decide) ("gpu")).2.2 (by decide) (by decide),
   (C4_get_device_total toyTorch (by decide) ("tpu")).2.1 (by decide)⟩

/-- Claim C5 is false as stated: with CUDA available, the input `cpu:3`
(which matches the spec's expected input shape `stem ':' integer`) returns
the pair `("cpu:3", 3)` — a non-negative index together with a device that
denotes CPU. -/
theorem C5_counterexample : ¬ claimC5 toyTorchG ("cpu:3") := by
  intro h
  have h0 := h [] ("cpu:3") 3 rfl
  have h1 := h0.2 (by decide)
  exact absurd h1 (by decide)

/-- Claim C5 amended: restricted to inputs whose lowercased form is not a
proper extension of `cpu`, and whose text after the last colon, when the
input starts with `gpu`/`cuda` and that text parses as an integer, is
non-negative: then the returned device is `cpu` exactly when the returned
index is -1, and a non-negative index comes with a `gpu`/`cuda` device. -/
theorem C5_amended_invariant (tenv : TorchEnv) (device : String)
    (hres : ¬ (pyStartsWith ("cpu") (pyLower device) = true
        ∧ pyLower device ≠ "cpu"))
    (hneg : (pyStartsWith ("gpu") (pyLower device) = true
        ∨ pyStartsWith ("cuda") (pyLower device) = true) →
      ∀ k, pyIntChars ((splitColon (pyLower device).data).getLastD []) = some k →
        0 ≤ k)
    (w : List String) (d : String) (k : Int)
    (h : get_device tenv device = some (w, d, k)) :
    (k = -1 ↔ d = "cpu")
    ∧ (0 ≤ k → (pyStartsWith ("gpu") d = true ∨ pyStartsWith ("cuda") d = true)) := by
  by_cases hd : normDevice device = "cpu"
  · simp only [get_device, hd, if_pos] at h
    rcases Option.some.inj h with h2
    rcases Prod.mk.injEq .. ▸ h2 with ⟨hw, hdk⟩
    rcases Prod.mk.injEq .. ▸ hdk with ⟨hdd, hkk⟩
    subst hdd
    subst hkk
    refine ⟨by simp, ?_⟩
    intro hk
    exact absurd hk (by decide)
  · have hrec : recognizedDevice device = true := by
      by_cases hr2 : recognizedDevice device = true
      · exact hr2
      · exact absurd (by simp [normDevice, eq_false_of_ne_true hr2]) hd
    have hnd : normDevice device = pyLower device := by
      simp [normDevice, hrec]
    have hgc2 : pyStartsWith ("gpu") (pyLower device) = true
        ∨ pyStartsWith ("cuda") (pyLower device) = true := by
      have h3 : pyStartsWith ("cpu") (pyLower device) = true
          ∨ pyStartsWith ("gpu") (pyLower device) = true
          ∨ pyStartsWith ("cuda") (pyLower device) = true := by
        simpa [recognizedDevice, Bool.or_assoc] using hrec
      rcases h3 with hcpu | hrest
      · exact absurd ⟨hcpu, fun hlow => hd (hnd.trans hlow)⟩ hres
      · exact hrest
    simp only [get_device, hd, if_neg] at h
    cases hattach : deviceAttach tenv (normDevice device) with
    | none => rw [hattach] at h; cases h
    | some o =>
      rw [hattach] at h
      cases o with
      | none =>
        rcases Option.some.inj h with h2
        rcases Prod.mk.injEq .. ▸ h2 with ⟨hw, hdk⟩
        rcases Prod.mk.injEq .. ▸ hdk with ⟨hdd, hkk⟩
        subst hdd
        subst hkk
        refine ⟨by simp, ?_⟩
        intro hk
        exact absurd hk (by decide)
      | some k0 =>
        rcases Option.some.inj h with h2
        rcases Prod.mk.injEq .. ▸ h2 with ⟨hw, hdk⟩
        rcases Prod.mk.injEq .. ▸ hdk with ⟨hdd, hkk⟩
        subst hdd
        subst hkk
        have hk0 : 0 ≤ k0 := by
          unfold deviceAttach at hattach
          by_cases hav : tenv.cuda_available = true
          · rw [if_pos hav] at hattach
            by_cases hgc : normDevice device = "gpu" ∨ normDevice device = "cuda"
            · rw [if_pos hgc] at hattach
              cases hh : (List.range tenv.cuda_device_count).head? with
              | none => rw [hh] at hattach; cases hattach
              | some k1 =>
                rw [hh] at hattach
                rcases Option.some.inj hattach with h3
                rcases Option.some.inj h3 with h4
                omega
            · rw [if_neg hgc] at hattach
              rcases Option.some.inj hattach with h3
              exact hneg hgc2 k0 (by rw [← hnd]; exact h3)
          · rw [if_neg hav] at hattach
            cases hattach
        constructor
        · constructor
          · intro hk1
            omega
          · intro hdc
            have : pyStartsWith ("cpu") (pyLower device) = true := by
              rw [hnd] at hdc
              rw [hdc]
              decide
            exact absurd ⟨this, fun hlow => hd (hnd.trans hlow)⟩ hres
        · intro _
          rw [hnd]
          exact hgc2

/-- Witness for the amended C5 at the concrete input `gpu:2` with three CUDA
devices available. -/
theorem C5_amended_witness :
    (((2 : Int) = -1 ↔ "gpu:2" = "cpu")
      ∧ (0 ≤ (2 : Int) →
          (pyStartsWith ("gpu") ("gpu:2") = true
            ∨ pyStartsWith ("cuda") ("gpu:2") = true))) :=
  C5_amended_invariant toyTorchG ("gpu:2") (by decide)
    (fun _ k hk => by
      have h2 : (some 2 : Option Int) = some k := hk
      injection h2 with h2e
      omega)
    [] ("gpu:2") 2 rfl

theorem sentimentCore_snd {C T M S : Type} {score : PipelineArgs T → String → S}
    {lenv : LoaderEnv C T M} {tenv : TorchEnv} {x : StrOrList}
    {model device : String} {r : PipelineArgs T × List S} :
    hgTransformerGetSentimentCore score lenv tenv x model device = some r →
    r.2 = runPipeline score r.1 (coerceStrings x) := by
  intro hr
  simp only [hgTransformerGetSentimentCore, bind, Option.bind_eq_some] at hr
  rcases hr with ⟨⟨w, d, k⟩, hdev, hr⟩
  by_cases hmod : model ≠ ""
  · rw [if_pos hmod] at hr
    simp only [Option.bind_eq_some] at hr
    rcases hr with ⟨⟨c, tokv, tmv⟩, hgm, hr⟩
    by_cases hk : (0 : Int) < k
    · rw [if_pos hk] at hr
      rcases Option.some.inj hr with h2
      rw [← h2]
    · rw [if_neg hk] at hr
      rcases Option.some.inj hr with h2
      rw [← h2]
  · rw [if_neg hmod] at hr
    by_cases hk : (0 : Int) < k
    · rw [if_pos hk] at hr
      rcases Option.some.inj hr with h2
      rw [← h2]
    · rw [if_neg hk] at hr
      rcases Option.some.inj hr with h2
      rw [← h2]

/-- Claim C7: `hgTransformerGetSentiment` coerces a single string input into
a singleton list (the single-string and singleton-list calls agree exactly),
and for every list input a successful call returns the per-string pipeline
output mapped over the input list — one label/score result per input string,
in input order. -/
theorem C7_sentiment_order {C T M S : Type}
    (score : PipelineArgs T → String → S) (lenv : LoaderEnv C T M)
    (tenv : TorchEnv) (model device : String) (s : String) :
    hgTransformerGetSentiment score lenv tenv (Sum.inl s) model device
      = hgTransformerGetSentiment score lenv tenv (Sum.inr [s]) model device
    ∧ ∀ (ts : List String) (r : PipelineArgs T × List S),
        hgTransformerGetSentimentCore score lenv tenv (Sum.inr ts) model device
          = some r →
        r.2 = ts.map (score r.1) ∧ r.2.length = ts.length := by
  constructor
  · rfl
  · intro ts r hr
    have h2 : r.2 = ts.map (score r.1) := sentimentCore_snd hr
    exact ⟨h2, by rw [h2, List.length_map]⟩

/-- Witness for C7: concrete two-element batch through the toy pipeline. -/
theorem C7_witness :
    ([("POS", (1 : Int)), ("POS", 1)]
        = (["a", "b"].map (toyScore ⟨none, none, none⟩)))
    ∧ ([("POS", (1 : Int)), ("POS", 1)].length = (["a", "b"] : List String).length) :=
  (C7_sentiment_order toyScore toyLenv toyTorch ("") "cpu" "x").2 ["a", "b"]
    (⟨none, none, none⟩, [("POS", 1), ("POS", 1)]) rfl

/-- Claim C8: the sentiment pipeline is constructed with an explicit device
index exactly when the resolved accelerator index is strictly greater than
zero; a resolved index of 0 or -1 yields a pipeline construction without a
device argument. -/
theorem C8_device_forwarding {C T M S : Type}
    (score : PipelineArgs T → String → S) (lenv : LoaderEnv C T M)
    (tenv : TorchEnv) (x : StrOrList) (model device : String)
    (w : List String) (d : String) (k : Int)
    (hdev : get_device tenv device = some (w, d, k))
    (r : PipelineArgs T × List S)
    (hr : hgTransformerGetSentimentCore score lenv tenv x model device = some r) :
    r.1.deviceArg = if 0 < k then some k else none := by
  simp only [hgTransformerGetSentimentCore, bind, hdev, Option.some_bind] at hr
  by_cases hmod : model ≠ ""
  · rw [if_pos hmod] at hr
    simp only [Option.bind_eq_some] at hr
    rcases hr with ⟨⟨c, tokv, tmv⟩, hgm, hr⟩
    by_cases hk : (0 : Int) < k
    · rw [if_pos hk] at hr
      rcases Option.some.inj hr with h2
      rw [← h2, if_pos hk]
    · rw [if_neg hk] at hr
      rcases Option.some.inj hr with h2
      rw [← h2, if_neg hk]
  · rw [if_neg hmod] at hr
    by_cases hk : (0 : Int) < k
    · rw [if_pos hk] at hr
      rcases Option.some.inj hr with h2
      rw [← h2, if_pos hk]
    · rw [if_neg hk] at hr
      rcases Option.some.inj hr with h2
      rw [← h2, if_neg hk]

/-- Witness for C8: device `gpu:2` resolves to index 2 > 0, so the pipeline
receives the explicit device argument. -/
theorem C8_witness :
    (⟨none, none, some 2⟩ : PipelineArgs TokBehavior).deviceArg
      = if 0 < (2 : Int) then some 2 else none :=
  C8_device_forwarding toyScore toyLenv toyTorchG (Sum.inr ["a"]) ("") ("gpu:2")
    [] ("gpu:2") 2 rfl (⟨none, none, some 2⟩, [("POS", 1)]) rfl

/-- Claim C9: for identifiers containing `megatron-bert`, a failing import of
the specialized classes makes `get_model` print a diagnostic and terminate
the process (no value); every other identifier loads configuration, tokenizer
and model by auto-resolution with `output_hidden_states = true` and returns
the triple without terminating. -/
theorem C9_get_model_cases {C T M : Type} (lenv : LoaderEnv C T M)
    (model : String) :
    (pyIn ("megatron-bert") model = true → lenv.megatron_import_ok = false →
      get_model lenv model = none)
    ∧ (pyIn ("megatron-bert") model = false →
      get_model lenv model
        = some (lenv.autoConfig model true, lenv.autoTokenizer model,
            lenv.autoModel model (lenv.autoConfig model true))) := by
  constructor
  · intro h1 h2
    simp [get_model, h1, h2]
  · intro h1
    simp [get_model, h1]

/-- Witness for C9: the megatron identifier with a failing import
terminates; a plain BERT identifier loads the toy triple. -/
theorem C9_witness :
    get_model toyLenvNoMega ("nvidia/megatron-bert-uncased-345m") = none
    ∧ get_model toyLenv ("bert") = some ((), toyTok, toyModel) :=
  ⟨(C9_get_model_cases toyLenvNoMega ("nvidia/megatron-bert-uncased-345m")).1
      (by decide) rfl,
   (C9_get_model_cases toyLenv ("bert")).2 (by decide)⟩
